import Mathlib

/-
Verification of the k8s-latency-probe repository.

The repository contains two versions of the probe program in main.go:
an instrumented version (the first main, with OpenTelemetry spans and
namespace resolution) and an uninstrumented version (the second main,
which pins the namespace to "default" and measures latency with a
printed latency_ms line).  Both create a pod named probe-<instance>,
start a goroutine that polls the list API every 100ms with the label
selector probe-instance=<instance>, concurrently patch the pod to attach
that label, race the poll signal against a 5 minute context deadline,
and clean up.

The embedding below models one run of each version as a deterministic
function of a schedule: the schedule fixes the behaviour of the external
API (when the created pod becomes visible to list queries, how long a
list call takes, which list calls fail, whether the patch or the delete
fails) and resolves the one scheduler race that the channel structure
leaves open (a visibility signal arriving in the same instant as the
deadline).  Time is measured in integer milliseconds from the start of
the run; the sequential prefix of the run (config, create, patch) is
instantaneous, so the race between the poller and the deadline starts at
time 0, matching the start reference used by the second version's
latency measurement.
-/

namespace Probe

/-- context.WithTimeout(context.Background(), 5*time.Minute), in ms. -/
def ctxTimeoutMs : Nat := 300000

/-- time.NewTicker(100 * time.Millisecond), in ms. -/
def pollIntervalMs : Nat := 100

/-- Behaviour of the external world and of the scheduler for one run.
visibleFrom: earliest time at which a list query observes the created
pod (none means no query ever returns a matching item).  listDur: the
duration of each list call.  listErr: whether the k-th list call returns
an error.  patchErr and deleteErr: whether the patch and delete calls
return errors.  tieToDeadline: when the visibility signal becomes ready
in the same instant as the context deadline, the waiter's select picks
the ctx.Done branch (Go resolves a multi-ready select randomly; this bit
makes the choice explicit). -/
structure Sched where
  visibleFrom : Option Nat
  listDur : Nat
  listErr : Nat → Bool
  patchErr : Bool
  deleteErr : Bool
  tieToDeadline : Bool

/-- Result of one list call as seen by the poller. -/
inductive QueryRes where
  | err
  | empty
  | found
  deriving Repr, DecidableEq

/-- How the poller loop itself ends: it reaches the found <- send (emit,
carrying the time the successful list call returned), it returns through
the ctx.Done branch, or it panics on a list error (carrying the time the
failing call returned). -/
inductive PollerRaw where
  | emit (t : Nat)
  | ctxDone (t : Nat)
  | panicked (t : Nat)
  deriving Repr, DecidableEq

/-- Fate of the poller goroutine in the whole run.  signalled: its send
on the found channel was received.  blocked: it attempted the send after
the race had already resolved through the deadline branch, so no
receiver remains and the unbuffered send blocks forever (the goroutine
is only torn down by process exit).  ctxDone: it returned through the
ctx.Done branch.  panicked: its panic on a list error aborted the whole
process.  killed: the process ended (main-side panic or process exit)
before the poller reached any of these points. -/
inductive PollerExit where
  | signalled (t : Nat)
  | blocked (t : Nat)
  | ctxDone (t : Nat)
  | panicked (t : Nat)
  | killed
  deriving Repr, DecidableEq

/-- Which branch of the visibility-versus-deadline race the run took;
noRace when the process panicked before the race resolved. -/
inductive RaceOutcome where
  | foundFirst
  | deadlineFirst
  | noRace
  deriving Repr, DecidableEq

/-- One list call: when it was issued, against which namespace, and with
which label selector. -/
structure ListQ where
  time : Nat
  ns : String
  selector : String
  deriving Repr, DecidableEq

/-- One delete call: when it was issued, against which namespace, and
for which object name. -/
structure DelQ where
  time : Nat
  ns : String
  name : String
  deriving Repr, DecidableEq

/-- Observable result of one run: the remote operations issued (create,
patch, list, delete), the span event or printed latency, the race
outcome, the phase of the panic that aborted the run (if any), and the
fate of the poller goroutine. -/
structure RunResult where
  createdNs : Option String
  pod : String
  patchNs : Option String
  queries : List ListQ
  foundEventAt : Option Nat
  latencyMs : Option Nat
  deletes : List DelQ
  outcome : RaceOutcome
  panicPhase : Option String
  pollerExit : PollerExit
  deriving Repr, DecidableEq

/-- fmt.Sprintf("probe-%s", instance). -/
def podName (inst : String) : String := "probe-" ++ inst

/-- fmt.Sprintf("probe-instance=%s", instance), the label selector of
every list call. -/
def selectorFor (inst : String) : String := "probe-instance=" ++ inst

/-- currentNamespace from the instrumented version: the
K8S_NAMESPACE_NAME environment variable wins when non-empty, otherwise
the mounted serviceaccount namespace file is read (nsFile is its content
when the read succeeds, none when it fails). -/
def currentNamespace (env : String) (nsFile : Option String) : Except String String :=
  if env ≠ "" then Except.ok env
  else
    match nsFile with
    | none => Except.error "failed to read namespace"
    | some data => Except.ok data

/-- Whether a list query issued at time t returns a non-empty item set
(len(pods.Items) > 0 under the fixture behaviour of the schedule). -/
def matchesAt (s : Sched) (t : Nat) : Bool :=
  match s.visibleFrom with
  | some v => decide (v ≤ t)
  | none => false

/-- Result of the k-th list call issued at time t.  A call whose return
would land strictly after the context deadline is cancelled in flight
and returns an error (the shared context governs every remote call). -/
def queryRes (s : Sched) (k t : Nat) : QueryRes :=
  if s.listErr k then QueryRes.err
  else if ctxTimeoutMs < t + s.listDur then QueryRes.err
  else if matchesAt s t then QueryRes.found
  else QueryRes.empty

/-- A delete issued at time t fails when the schedule says so or when
the shared context is already cancelled (t at or past the deadline):
the client then returns the context error without completing. -/
def deleteFails (s : Sched) (t : Nat) : Bool :=
  s.deleteErr || decide (ctxTimeoutMs ≤ t)

/-- Fuel bound for the poll loop: ticks are 100ms apart, the deadline is
at 300000ms, and every iteration past the first waits for a fresh tick,
so no run performs more than 3000 iterations. -/
def pollFuel : Nat := 3001

/-- Poll loop of the instrumented version (first main): each iteration
first issues the list call (so the first call happens immediately, at
the loop entry time), panics on an error, sends on the found channel on
a non-empty result, and otherwise selects between ctx.Done and the
ticker.  k is the iteration index, t the time the iteration starts; the
ticker was started at time 0 so tick k+1 fires at 100*(k+1), and a tick
that fired while the list call was in flight is already pending, making
the next iteration start at max(return time, 100*(k+1)).  When ctx.Done
and the ticker are ready in the same instant the ctx.Done branch is
taken. -/
def pollerLoop1 (s : Sched) (ns inst : String) : Nat → Nat → Nat → List ListQ × PollerRaw
  | 0, _, t => ([], PollerRaw.ctxDone t)
  | fuel+1, k, t =>
    let q : ListQ := ⟨t, ns, selectorFor inst⟩
    match queryRes s k t with
    | QueryRes.err => ([q], PollerRaw.panicked (t + s.listDur))
    | QueryRes.found => ([q], PollerRaw.emit (t + s.listDur))
    | QueryRes.empty =>
      let next := max (t + s.listDur) (pollIntervalMs * (k+1))
      if ctxTimeoutMs ≤ next then
        ([q], PollerRaw.ctxDone (max (t + s.listDur) ctxTimeoutMs))
      else
        let rest := pollerLoop1 s ns inst fuel (k+1) next
        (q :: rest.1, rest.2)

/-- Poll loop of the uninstrumented version (second main): each
iteration first selects between ctx.Done and the ticker, so the first
list call only happens at the first tick (100ms in), and the namespace
is the literal "default".  r is the time the previous iteration ended
(0 initially). -/
def pollerLoop2 (s : Sched) (inst : String) : Nat → Nat → Nat → List ListQ × PollerRaw
  | 0, _, r => ([], PollerRaw.ctxDone r)
  | fuel+1, k, r =>
    let w := max r (pollIntervalMs * (k+1))
    if ctxTimeoutMs ≤ w then ([], PollerRaw.ctxDone (max r ctxTimeoutMs))
    else
      let q : ListQ := ⟨w, "default", selectorFor inst⟩
      match queryRes s k w with
      | QueryRes.err => ([q], PollerRaw.panicked (w + s.listDur))
      | QueryRes.found => ([q], PollerRaw.emit (w + s.listDur))
      | QueryRes.empty =>
        let rest := pollerLoop2 s inst fuel (k+1) (w + s.listDur)
        (q :: rest.1, rest.2)

/-- One run of the instrumented version (first main).  Sequence: resolve
the namespace (must: a resolution error panics before anything is
created), create the pod, start the poller, patch the pod (must: a patch
error panics, aborting the run before the race; the poller's first query
shares instant 0 with the patch and is pre-empted by the panic), then
select found versus ctx.Done, and finally delete the pod on whichever
branch won (a delete error panics).  A poller panic at or before the
deadline aborts the whole process before the race resolves; a poller
panic that would land after the deadline never fires because main has
already deleted and exited. -/
def main1 (env : String) (nsFile : Option String) (inst : String) (s : Sched) : RunResult :=
  let name := podName inst
  match currentNamespace env nsFile with
  | Except.error _ =>
      ⟨none, name, none, [], none, none, [], RaceOutcome.noRace, some "namespace",
        PollerExit.killed⟩
  | Except.ok ns =>
      if s.patchErr then
        ⟨some ns, name, some ns, [], none, none, [], RaceOutcome.noRace, some "patch",
          PollerExit.killed⟩
      else
        match pollerLoop1 s ns inst pollFuel 0 0 with
        | (qs, PollerRaw.emit ts) =>
            if ts < ctxTimeoutMs ∨ (ts = ctxTimeoutMs ∧ s.tieToDeadline = false) then
              ⟨some ns, name, some ns, qs, some ts, none, [⟨ts, ns, name⟩],
                RaceOutcome.foundFirst,
                (if deleteFails s ts then some "delete" else none),
                PollerExit.signalled ts⟩
            else
              ⟨some ns, name, some ns, qs, some ts, none, [⟨ctxTimeoutMs, ns, name⟩],
                RaceOutcome.deadlineFirst,
                (if deleteFails s ctxTimeoutMs then some "delete" else none),
                PollerExit.blocked ts⟩
        | (qs, PollerRaw.ctxDone t) =>
            ⟨some ns, name, some ns, qs, none, none, [⟨ctxTimeoutMs, ns, name⟩],
              RaceOutcome.deadlineFirst,
              (if deleteFails s ctxTimeoutMs then some "delete" else none),
              PollerExit.ctxDone t⟩
        | (qs, PollerRaw.panicked tp) =>
            if tp ≤ ctxTimeoutMs then
              ⟨some ns, name, some ns, qs, none, none, [], RaceOutcome.noRace, some "list",
                PollerExit.panicked tp⟩
            else
              ⟨some ns, name, some ns, qs, none, none, [⟨ctxTimeoutMs, ns, name⟩],
                RaceOutcome.deadlineFirst,
                (if deleteFails s ctxTimeoutMs then some "delete" else none),
                PollerExit.killed⟩

/-- One run of the uninstrumented version (second main).  Sequence:
create the pod in "default", start the poller, start the waiter
goroutine (which captures its latency start time at instant 0), patch
the pod (must: a patch error panics before the race), then the waiter
selects found versus ctx.Done.  On found it prints latency_ms (time
since its start, i.e. the signal time) and deletes the pod; on ctx.Done
it returns without any delete, so a timeout run issues no delete at
all and main exits through its own ctx.Done branch. -/
def main2 (inst : String) (s : Sched) : RunResult :=
  let name := podName inst
  if s.patchErr then
    ⟨some "default", name, some "default", [], none, none, [], RaceOutcome.noRace,
      some "patch", PollerExit.killed⟩
  else
    match pollerLoop2 s inst pollFuel 0 0 with
    | (qs, PollerRaw.emit ts) =>
        if ts < ctxTimeoutMs ∨ (ts = ctxTimeoutMs ∧ s.tieToDeadline = false) then
          if deleteFails s ts then
            ⟨some "default", name, some "default", qs, none, some ts, [⟨ts, "default", name⟩],
              RaceOutcome.foundFirst, some "delete", PollerExit.signalled ts⟩
          else
            ⟨some "default", name, some "default", qs, none, some ts, [⟨ts, "default", name⟩],
              RaceOutcome.foundFirst, none, PollerExit.signalled ts⟩
        else
          ⟨some "default", name, some "default", qs, none, none, [],
            RaceOutcome.deadlineFirst, none, PollerExit.blocked ts⟩
    | (qs, PollerRaw.ctxDone t) =>
        ⟨some "default", name, some "default", qs, none, none, [],
          RaceOutcome.deadlineFirst, none, PollerExit.ctxDone t⟩
    | (qs, PollerRaw.panicked tp) =>
        if tp ≤ ctxTimeoutMs then
          ⟨some "default", name, some "default", qs, none, none, [], RaceOutcome.noRace,
            some "list", PollerExit.panicked tp⟩
        else
          ⟨some "default", name, some "default", qs, none, none, [],
            RaceOutcome.deadlineFirst, none, PollerExit.killed⟩

/-- A schedule with no failures, instantaneous list calls, and a pod
that never becomes visible. -/
def sNone : Sched := ⟨none, 0, fun _ => false, false, false, false⟩

/-- A failure-free schedule where the pod is visible from time 0. -/
def sAt0 : Sched := ⟨some 0, 0, fun _ => false, false, false, false⟩

/-- A schedule where every list call returns an error. -/
def sErr : Sched := ⟨none, 0, fun _ => true, false, false, false⟩

/-- A schedule where the pod is visible immediately but the delete call
fails. -/
def sDelErr : Sched := ⟨some 0, 0, fun _ => false, false, true, false⟩

/-- A schedule where the patch call fails. -/
def sPatchErr : Sched := ⟨none, 0, fun _ => false, true, false, false⟩

/-- A schedule realising the near-simultaneous race: the pod becomes
visible at 299900ms, list calls take 100ms, so the successful list call
returns exactly at the deadline, and the waiter's select resolves the
tie through the ctx.Done branch. -/
def sTie : Sched := ⟨some 299900, 100, fun _ => false, false, false, true⟩

/-- Schedules with instantaneous, error-free list calls and no patch or
delete failures: the quantification domain of the race claims. -/
def FailureFree (s : Sched) : Prop :=
  s.listDur = 0 ∧ (∀ k, s.listErr k = false) ∧ s.patchErr = false ∧ s.deleteErr = false

/-- Index of the first 100ms grid point at or after v. -/
def tickIndex (v : Nat) : Nat := (v + 99) / 100

/-- The list calls a clean run issues: n calls at t0, t0+100, t0+200, ...
against one namespace with one selector. -/
def tickQueries (ns sel : String) (t0 n : Nat) : List ListQ :=
  (List.range n).map (fun i => ⟨t0 + pollIntervalMs * i, ns, sel⟩)

theorem queryRes_clean (s : Sched) (k t : Nat) (hd : s.listDur = 0)
    (he : s.listErr k = false) (ht : t ≤ ctxTimeoutMs) :
    queryRes s k t = if matchesAt s t then QueryRes.found else QueryRes.empty := by
  unfold queryRes
  rw [hd, he]
  simp only [Bool.false_eq_true, if_false, Nat.add_zero]
  rw [if_neg (by omega)]

/-- Unrolling of the instrumented poll loop on a clean schedule whose
first matching grid point is 100*m: starting at iteration k at time
100*k, it queries every grid point from 100*k to 100*m and reaches the
found send at 100*m. -/
theorem poller1_find (s : Sched) (ns inst : String)
    (hd : s.listDur = 0) (he : ∀ k, s.listErr k = false) (m : Nat) (hm : m ≤ 2999)
    (hfound : matchesAt s (pollIntervalMs * m) = true)
    (hbefore : ∀ j, j < m → matchesAt s (pollIntervalMs * j) = false) :
    ∀ fuel k, k ≤ m → m - k < fuel →
      pollerLoop1 s ns inst fuel k (pollIntervalMs * k) =
        ((List.range (m - k + 1)).map
            (fun i => ListQ.mk (pollIntervalMs * (k + i)) ns (selectorFor inst)),
         PollerRaw.emit (pollIntervalMs * m)) := by
  intro fuel
  induction fuel with
  | zero => intro k hk hf; omega
  | succ fuel ih =>
    intro k hk hf
    have hq := queryRes_clean s k (pollIntervalMs * k) hd (he k)
      (by simp only [pollIntervalMs, ctxTimeoutMs]; omega)
    by_cases hkm : k = m
    · subst hkm
      have hq2 : queryRes s k (pollIntervalMs * k) = QueryRes.found := by
        rw [hq, if_pos hfound]
      simp only [pollerLoop1, hq2, hd, Nat.add_zero, Nat.sub_self]
      simp [List.range_succ]
    · have hklt : k < m := by omega
      have hq2 : queryRes s k (pollIntervalMs * k) = QueryRes.empty := by
        rw [hq, if_neg (by simp [hbefore k hklt])]
      have hnext : max (pollIntervalMs * k + s.listDur) (pollIntervalMs * (k + 1)) =
          pollIntervalMs * (k + 1) := by
        rw [hd]
        simp only [pollIntervalMs]
        omega
      have hnotdone : ¬ ctxTimeoutMs ≤ pollIntervalMs * (k + 1) := by
        simp only [pollIntervalMs, ctxTimeoutMs]
        omega
      have hrec := ih (k + 1) (by omega) (by omega)
      have hms : m - k + 1 = (m - (k + 1) + 1) + 1 := by omega
      have hfun : ((fun i => ListQ.mk (pollIntervalMs * (k + i)) ns (selectorFor inst)) ∘
          Nat.succ) = fun i => ListQ.mk (pollIntervalMs * (k + 1 + i)) ns
            (selectorFor inst) := by
        funext i
        simp only [Function.comp]
        have hadd : k + Nat.succ i = k + 1 + i := by omega
        rw [hadd]
      have hlist : (List.range (m - k + 1)).map
            (fun i => ListQ.mk (pollIntervalMs * (k + i)) ns (selectorFor inst)) =
          ListQ.mk (pollIntervalMs * k) ns (selectorFor inst) ::
            (List.range (m - (k + 1) + 1)).map
              (fun i => ListQ.mk (pollIntervalMs * (k + 1 + i)) ns (selectorFor inst)) := by
        rw [hms, List.range_succ_eq_map, List.map_cons, List.map_map, hfun]
        simp
      simp only [pollerLoop1, hq2, hnext, hnotdone, if_false, hrec]
      rw [hlist]

/-- Unrolling of the instrumented poll loop on a clean schedule with no
matching grid point: starting at iteration k at time 100*k, it queries
every grid point from 100*k to 299900 and then returns through the
ctx.Done branch at the deadline. -/
theorem poller1_timeout (s : Sched) (ns inst : String)
    (hd : s.listDur = 0) (he : ∀ k, s.listErr k = false)
    (hnone : ∀ j, j ≤ 2999 → matchesAt s (pollIntervalMs * j) = false) :
    ∀ fuel k, k ≤ 2999 → 2999 - k < fuel →
      pollerLoop1 s ns inst fuel k (pollIntervalMs * k) =
        ((List.range (3000 - k)).map
            (fun i => ListQ.mk (pollIntervalMs * (k + i)) ns (selectorFor inst)),
         PollerRaw.ctxDone ctxTimeoutMs) := by
  intro fuel
  induction fuel with
  | zero => intro k hk hf; omega
  | succ fuel ih =>
    intro k hk hf
    have hq := queryRes_clean s k (pollIntervalMs * k) hd (he k)
      (by simp only [pollIntervalMs, ctxTimeoutMs]; omega)
    have hq2 : queryRes s k (pollIntervalMs * k) = QueryRes.empty := by
      rw [hq, if_neg (by simp [hnone k hk])]
    have hnext : max (pollIntervalMs * k + s.listDur) (pollIntervalMs * (k + 1)) =
        pollIntervalMs * (k + 1) := by
      rw [hd]
      simp only [pollIntervalMs]
      omega
    by_cases hlast : k = 2999
    · subst hlast
      have hdone : ctxTimeoutMs ≤ pollIntervalMs * (2999 + 1) := by
        simp only [pollIntervalMs, ctxTimeoutMs]
        omega
      have hmax : max (pollIntervalMs * 2999 + s.listDur) ctxTimeoutMs = ctxTimeoutMs := by
        rw [hd]
        simp only [pollIntervalMs, ctxTimeoutMs]
        omega
      simp only [pollerLoop1, hq2, hnext, hdone, if_true, hmax]
      simp [List.range_succ]
    · have hklt : k < 2999 := by omega
      have hnotdone : ¬ ctxTimeoutMs ≤ pollIntervalMs * (k + 1) := by
        simp only [pollIntervalMs, ctxTimeoutMs]
        omega
      have hrec := ih (k + 1) (by omega) (by omega)
      have hms : 3000 - k = (3000 - (k + 1)) + 1 := by omega
      have hfun : ((fun i => ListQ.mk (pollIntervalMs * (k + i)) ns (selectorFor inst)) ∘
          Nat.succ) = fun i => ListQ.mk (pollIntervalMs * (k + 1 + i)) ns
            (selectorFor inst) := by
        funext i
        simp only [Function.comp]
        have hadd : k + Nat.succ i = k + 1 + i := by omega
        rw [hadd]
      have hlist : (List.range (3000 - k)).map
            (fun i => ListQ.mk (pollIntervalMs * (k + i)) ns (selectorFor inst)) =
          ListQ.mk (pollIntervalMs * k) ns (selectorFor inst) ::
            (List.range (3000 - (k + 1))).map
              (fun i => ListQ.mk (pollIntervalMs * (k + 1 + i)) ns (selectorFor inst)) := by
        rw [hms, List.range_succ_eq_map, List.map_cons, List.map_map, hfun]
        simp
      simp only [pollerLoop1, hq2, hnext, hnotdone, if_false, hrec]
      rw [hlist]

/-- Unrolling of the uninstrumented poll loop on a clean schedule whose
first matching grid point at or after the first tick is 100*m: starting
at iteration k (having ended the previous iteration at time 100*k), it
queries the grid points 100*(k+1), ..., 100*m and reaches the found send
at 100*m. -/
theorem poller2_find (s : Sched) (inst : String)
    (hd : s.listDur = 0) (he : ∀ k, s.listErr k = false) (m : Nat)
    (hm1 : 1 ≤ m) (hm : m ≤ 2999)
    (hfound : matchesAt s (pollIntervalMs * m) = true)
    (hbefore : ∀ j, 1 ≤ j → j < m → matchesAt s (pollIntervalMs * j) = false) :
    ∀ fuel k, k < m → m - k ≤ fuel →
      pollerLoop2 s inst fuel k (pollIntervalMs * k) =
        ((List.range (m - k)).map
            (fun i => ListQ.mk (pollIntervalMs * (k + 1 + i)) "default" (selectorFor inst)),
         PollerRaw.emit (pollIntervalMs * m)) := by
  intro fuel
  induction fuel with
  | zero => intro k hk hf; omega
  | succ fuel ih =>
    intro k hk hf
    have hw : max (pollIntervalMs * k) (pollIntervalMs * (k + 1)) =
        pollIntervalMs * (k + 1) := by
      simp only [pollIntervalMs]
      omega
    have hnotdone : ¬ ctxTimeoutMs ≤ pollIntervalMs * (k + 1) := by
      simp only [pollIntervalMs, ctxTimeoutMs]
      omega
    have hq := queryRes_clean s k (pollIntervalMs * (k + 1)) hd (he k)
      (by simp only [pollIntervalMs, ctxTimeoutMs]; omega)
    by_cases hkm : k + 1 = m
    · have hq2 : queryRes s k (pollIntervalMs * (k + 1)) = QueryRes.found := by
        rw [hq, if_pos (by rw [hkm]; exact hfound)]
      simp only [pollerLoop2, hw, hnotdone, if_false, hq2, hd, Nat.add_zero]
      have hmk : m - k = 1 := by omega
      rw [hmk, hkm]
      simp [List.range_succ]
    · have hklt : k + 1 < m := by omega
      have hq2 : queryRes s k (pollIntervalMs * (k + 1)) = QueryRes.empty := by
        rw [hq, if_neg (by simp [hbefore (k + 1) (by omega) hklt])]
      have hrec := ih (k + 1) (by omega) (by omega)
      have hms : m - k = (m - (k + 1)) + 1 := by omega
      have hfun : ((fun i => ListQ.mk (pollIntervalMs * (k + 1 + i)) "default"
          (selectorFor inst)) ∘ Nat.succ) =
          fun i => ListQ.mk (pollIntervalMs * (k + 1 + 1 + i)) "default"
            (selectorFor inst) := by
        funext i
        simp only [Function.comp]
        have hadd : k + 1 + Nat.succ i = k + 1 + 1 + i := by omega
        rw [hadd]
      have hlist : (List.range (m - k)).map
            (fun i => ListQ.mk (pollIntervalMs * (k + 1 + i)) "default" (selectorFor inst)) =
          ListQ.mk (pollIntervalMs * (k + 1)) "default" (selectorFor inst) ::
            (List.range (m - (k + 1))).map
              (fun i => ListQ.mk (pollIntervalMs * (k + 1 + 1 + i)) "default"
                (selectorFor inst)) := by
        rw [hms, List.range_succ_eq_map, List.map_cons, List.map_map, hfun]
      have hrd : pollIntervalMs * (k + 1) + s.listDur = pollIntervalMs * (k + 1) := by
        simp [hd]
      simp only [pollerLoop2, hw, hnotdone, if_false, hq2, hrd, hrec, hlist]

/-- Unrolling of the uninstrumented poll loop on a clean schedule with
no matching grid point: starting at iteration k, it queries the grid
points 100*(k+1), ..., 299900 and then returns through the ctx.Done
branch at the deadline (its select sees ctx.Done ready when the tick at
300000 would fire). -/
theorem poller2_timeout (s : Sched) (inst : String)
    (hd : s.listDur = 0) (he : ∀ k, s.listErr k = false)
    (hnone : ∀ j, j ≤ 2999 → matchesAt s (pollIntervalMs * j) = false) :
    ∀ fuel k, k ≤ 2999 → 2999 - k < fuel →
      pollerLoop2 s inst fuel k (pollIntervalMs * k) =
        ((List.range (2999 - k)).map
            (fun i => ListQ.mk (pollIntervalMs * (k + 1 + i)) "default" (selectorFor inst)),
         PollerRaw.ctxDone ctxTimeoutMs) := by
  intro fuel
  induction fuel with
  | zero => intro k hk hf; omega
  | succ fuel ih =>
    intro k hk hf
    by_cases hlast : k = 2999
    · subst hlast
      have hw : max (pollIntervalMs * 2999) (pollIntervalMs * (2999 + 1)) =
          pollIntervalMs * (2999 + 1) := by
        simp only [pollIntervalMs]
        omega
      have hdone : ctxTimeoutMs ≤ pollIntervalMs * (2999 + 1) := by
        simp only [pollIntervalMs, ctxTimeoutMs]
        omega
      have hmax : max (pollIntervalMs * 2999) ctxTimeoutMs = ctxTimeoutMs := by
        simp only [pollIntervalMs, ctxTimeoutMs]
        omega
      simp only [pollerLoop2, hw, hdone, if_true, hmax]
      simp
    · have hklt : k < 2999 := by omega
      have hw : max (pollIntervalMs * k) (pollIntervalMs * (k + 1)) =
          pollIntervalMs * (k + 1) := by
        simp only [pollIntervalMs]
        omega
      have hnotdone : ¬ ctxTimeoutMs ≤ pollIntervalMs * (k + 1) := by
        simp only [pollIntervalMs, ctxTimeoutMs]
        omega
      have hq := queryRes_clean s k (pollIntervalMs * (k + 1)) hd (he k)
        (by simp only [pollIntervalMs, ctxTimeoutMs]; omega)
      have hq2 : queryRes s k (pollIntervalMs * (k + 1)) = QueryRes.empty := by
        rw [hq, if_neg (by simp [hnone (k + 1) (by omega)])]
      have hrec := ih (k + 1) (by omega) (by omega)
      have hms : 2999 - k = (2999 - (k + 1)) + 1 := by omega
      have hfun : ((fun i => ListQ.mk (pollIntervalMs * (k + 1 + i)) "default"
          (selectorFor inst)) ∘ Nat.succ) =
          fun i => ListQ.mk (pollIntervalMs * (k + 1 + 1 + i)) "default"
            (selectorFor inst) := by
        funext i
        simp only [Function.comp]
        have hadd : k + 1 + Nat.succ i = k + 1 + 1 + i := by omega
        rw [hadd]
      have hlist : (List.range (2999 - k)).map
            (fun i => ListQ.mk (pollIntervalMs * (k + 1 + i)) "default" (selectorFor inst)) =
          ListQ.mk (pollIntervalMs * (k + 1)) "default" (selectorFor inst) ::
            (List.range (2999 - (k + 1))).map
              (fun i => ListQ.mk (pollIntervalMs * (k + 1 + 1 + i)) "default"
                (selectorFor inst)) := by
        rw [hms, List.range_succ_eq_map, List.map_cons, List.map_map, hfun]
      have hrd : pollIntervalMs * (k + 1) + s.listDur = pollIntervalMs * (k + 1) := by
        simp [hd]
      simp only [pollerLoop2, hw, hnotdone, if_false, hq2, hrd, hrec, hlist]

theorem matchesAt_first (s : Sched) (v : Nat) (hv : s.visibleFrom = some v) :
    matchesAt s (pollIntervalMs * tickIndex v) = true := by
  simp only [matchesAt, hv, decide_eq_true_eq, pollIntervalMs, tickIndex]
  omega

theorem matchesAt_before (s : Sched) (v j : Nat) (hv : s.visibleFrom = some v)
    (hj : j < tickIndex v) : matchesAt s (pollIntervalMs * j) = false := by
  simp only [matchesAt, hv, decide_eq_false_iff_not, pollIntervalMs]
  simp only [tickIndex] at hj
  omega

theorem matchesAt_first2 (s : Sched) (v : Nat) (hv : s.visibleFrom = some v) :
    matchesAt s (pollIntervalMs * max 1 (tickIndex v)) = true := by
  simp only [matchesAt, hv, decide_eq_true_eq, pollIntervalMs, tickIndex]
  omega

theorem matchesAt_before2 (s : Sched) (v j : Nat) (hv : s.visibleFrom = some v)
    (h1 : 1 ≤ j) (hj : j < max 1 (tickIndex v)) : matchesAt s (pollIntervalMs * j) = false := by
  simp only [matchesAt, hv, decide_eq_false_iff_not, pollIntervalMs]
  simp only [tickIndex] at hj
  omega

theorem tickIndex_bound (v : Nat) (h : v ≤ 299900) : tickIndex v ≤ 2999 := by
  simp only [tickIndex]
  omega

/-- Grid points never match when the pod never becomes visible or only
becomes visible after the last pre-deadline grid point. -/
theorem noSig_grid (s : Sched)
    (h : s.visibleFrom = none ∨ ∃ v, s.visibleFrom = some v ∧ 299900 < v) :
    ∀ j, j ≤ 2999 → matchesAt s (pollIntervalMs * j) = false := by
  intro j hj
  rcases h with h | ⟨v, hv, hgt⟩
  · simp [matchesAt, h]
  · simp only [matchesAt, hv, decide_eq_false_iff_not, pollIntervalMs]
    omega

theorem tickQueries_zero (ns sel : String) (n : Nat) :
    (List.range n).map (fun i => ListQ.mk (pollIntervalMs * (0 + i)) ns sel) =
      tickQueries ns sel 0 n := by
  unfold tickQueries
  have hfun : (fun i => ListQ.mk (pollIntervalMs * (0 + i)) ns sel) =
      fun i => ListQ.mk (0 + pollIntervalMs * i) ns sel := by
    funext i
    simp
  rw [hfun]

theorem tickQueries_one (ns sel : String) (n : Nat) :
    (List.range n).map (fun i => ListQ.mk (pollIntervalMs * (0 + 1 + i)) ns sel) =
      tickQueries ns sel pollIntervalMs n := by
  unfold tickQueries
  have hfun : (fun i => ListQ.mk (pollIntervalMs * (0 + 1 + i)) ns sel) =
      fun i => ListQ.mk (pollIntervalMs + pollIntervalMs * i) ns sel := by
    funext i
    simp only [ListQ.mk.injEq, and_true]
    simp only [pollIntervalMs]
    omega
  rw [hfun]

/-- Full observable record of an instrumented run on a failure-free
schedule whose pod becomes visible at v ≤ 299900: the poller queries
every grid point up to the first one at or after v, the signal is
received there, and the single delete happens at the signal time. -/
theorem main1_clean_found (env : String) (nsFile : Option String) (inst ns : String)
    (s : Sched) (v : Nat) (hF : FailureFree s)
    (hns : currentNamespace env nsFile = Except.ok ns)
    (hv : s.visibleFrom = some v) (hvle : v ≤ 299900) :
    main1 env nsFile inst s =
      ⟨some ns, podName inst, some ns,
        tickQueries ns (selectorFor inst) 0 (tickIndex v + 1),
        some (pollIntervalMs * tickIndex v), none,
        [⟨pollIntervalMs * tickIndex v, ns, podName inst⟩],
        RaceOutcome.foundFirst, none,
        PollerExit.signalled (pollIntervalMs * tickIndex v)⟩ := by
  obtain ⟨hd, he, hp, hdel⟩ := hF
  have hm := tickIndex_bound v hvle
  have hpoll := poller1_find s ns inst hd he (tickIndex v) hm
    (matchesAt_first s v hv) (fun j hj => matchesAt_before s v j hv hj)
    pollFuel 0 (by omega) (by simp only [pollFuel]; omega)
  simp only [Nat.mul_zero, Nat.sub_zero] at hpoll
  have hts : pollIntervalMs * tickIndex v < ctxTimeoutMs := by
    simp only [pollIntervalMs, ctxTimeoutMs]
    omega
  have hdf : deleteFails s (pollIntervalMs * tickIndex v) = false := by
    simp only [deleteFails, hdel, Bool.false_or, decide_eq_false_iff_not]
    simp only [pollIntervalMs, ctxTimeoutMs]
    omega
  simp only [main1, hns, hp, Bool.false_eq_true, if_false, hpoll, hdf,
    if_pos (Or.inl hts), tickQueries_zero]

/-- Full observable record of an instrumented run on a failure-free
schedule with no visibility before the deadline: the poller queries all
3000 grid points, returns through ctx.Done, the main select takes the
deadline branch, and the delete issued at the deadline fails (the shared
context is already cancelled), panicking the process. -/
theorem main1_clean_timeout (env : String) (nsFile : Option String) (inst ns : String)
    (s : Sched) (hF : FailureFree s)
    (hns : currentNamespace env nsFile = Except.ok ns)
    (hnone : ∀ j, j ≤ 2999 → matchesAt s (pollIntervalMs * j) = false) :
    main1 env nsFile inst s =
      ⟨some ns, podName inst, some ns,
        tickQueries ns (selectorFor inst) 0 3000,
        none, none,
        [⟨ctxTimeoutMs, ns, podName inst⟩],
        RaceOutcome.deadlineFirst, some "delete",
        PollerExit.ctxDone ctxTimeoutMs⟩ := by
  obtain ⟨hd, he, hp, hdel⟩ := hF
  have hpoll := poller1_timeout s ns inst hd he hnone
    pollFuel 0 (by omega) (by simp only [pollFuel]; omega)
  simp only [Nat.mul_zero, Nat.sub_zero] at hpoll
  have hdf : deleteFails s ctxTimeoutMs = true := by
    simp [deleteFails]
  simp only [main1, hns, hp, Bool.false_eq_true, if_false, hpoll, hdf,
    if_true, tickQueries_zero]

/-- Full observable record of an uninstrumented run on a failure-free
schedule whose pod becomes visible at v ≤ 299900: the poller starts one
interval late, so its first query is at 100 and the signal lands at the
first grid point at or after max(100, v); the waiter prints that time as
latency_ms and deletes the pod then. -/
theorem main2_clean_found (inst : String) (s : Sched) (v : Nat) (hF : FailureFree s)
    (hv : s.visibleFrom = some v) (hvle : v ≤ 299900) :
    main2 inst s =
      ⟨some "default", podName inst, some "default",
        tickQueries "default" (selectorFor inst) pollIntervalMs (max 1 (tickIndex v)),
        none, some (pollIntervalMs * max 1 (tickIndex v)),
        [⟨pollIntervalMs * max 1 (tickIndex v), "default", podName inst⟩],
        RaceOutcome.foundFirst, none,
        PollerExit.signalled (pollIntervalMs * max 1 (tickIndex v))⟩ := by
  obtain ⟨hd, he, hp, hdel⟩ := hF
  have hm := tickIndex_bound v hvle
  have hpoll := poller2_find s inst hd he (max 1 (tickIndex v)) (le_max_left 1 _)
    (by omega) (matchesAt_first2 s v hv)
    (fun j h1 hj => matchesAt_before2 s v j hv h1 hj)
    pollFuel 0 (by omega) (by simp only [pollFuel]; omega)
  simp only [Nat.mul_zero, Nat.sub_zero] at hpoll
  have hts : pollIntervalMs * max 1 (tickIndex v) < ctxTimeoutMs := by
    simp only [pollIntervalMs, ctxTimeoutMs]
    omega
  have hdf : deleteFails s (pollIntervalMs * max 1 (tickIndex v)) = false := by
    simp only [deleteFails, hdel, Bool.false_or, decide_eq_false_iff_not]
    simp only [pollIntervalMs, ctxTimeoutMs]
    omega
  simp only [main2, hp, Bool.false_eq_true, if_false, hpoll, hdf,
    if_pos (Or.inl hts), tickQueries_one]

/-- Full observable record of an uninstrumented run on a failure-free
schedule with no visibility before the deadline: the poller queries the
2999 grid points from 100 to 299900, returns through ctx.Done, the
waiter takes the deadline branch without deleting, and main exits: no
delete is ever issued. -/
theorem main2_clean_timeout (inst : String) (s : Sched) (hF : FailureFree s)
    (hnone : ∀ j, j ≤ 2999 → matchesAt s (pollIntervalMs * j) = false) :
    main2 inst s =
      ⟨some "default", podName inst, some "default",
        tickQueries "default" (selectorFor inst) pollIntervalMs 2999,
        none, none, [],
        RaceOutcome.deadlineFirst, none,
        PollerExit.ctxDone ctxTimeoutMs⟩ := by
  obtain ⟨hd, he, hp, hdel⟩ := hF
  have hpoll := poller2_timeout s inst hd he hnone
    pollFuel 0 (by omega) (by simp only [pollFuel]; omega)
  simp only [Nat.mul_zero, Nat.sub_zero] at hpoll
  simp only [main2, hp, Bool.false_eq_true, if_false, hpoll, tickQueries_one]

/-- Every query the instrumented poll loop ever issues, on any schedule,
is scoped to the given namespace and carries the probe-instance
selector. -/
theorem pollerLoop1_ns_sel (s : Sched) (ns inst : String) :
    ∀ fuel k t q, q ∈ (pollerLoop1 s ns inst fuel k t).1 →
      q.ns = ns ∧ q.selector = selectorFor inst := by
  intro fuel
  induction fuel with
  | zero =>
    intro k t q hq
    simp [pollerLoop1] at hq
  | succ fuel ih =>
    intro k t q hq
    rcases hres : queryRes s k t with _ | _ | _
    · simp only [pollerLoop1, hres] at hq
      simp at hq
      subst hq
      exact ⟨rfl, rfl⟩
    · simp only [pollerLoop1, hres] at hq
      by_cases hdone : ctxTimeoutMs ≤ max (t + s.listDur) (pollIntervalMs * (k + 1))
      · rw [if_pos hdone] at hq
        simp at hq
        subst hq
        exact ⟨rfl, rfl⟩
      · rw [if_neg hdone] at hq
        simp at hq
        rcases hq with hq | hq
        · subst hq
          exact ⟨rfl, rfl⟩
        · exact ih (k + 1) _ q hq
    · simp only [pollerLoop1, hres] at hq
      simp at hq
      subst hq
      exact ⟨rfl, rfl⟩

/-- Every query the uninstrumented poll loop ever issues, on any
schedule, is scoped to "default" and carries the probe-instance
selector. -/
theorem pollerLoop2_ns_sel (s : Sched) (inst : String) :
    ∀ fuel k r q, q ∈ (pollerLoop2 s inst fuel k r).1 →
      q.ns = "default" ∧ q.selector = selectorFor inst := by
  intro fuel
  induction fuel with
  | zero =>
    intro k r q hq
    simp [pollerLoop2] at hq
  | succ fuel ih =>
    intro k r q hq
    simp only [pollerLoop2] at hq
    by_cases hdone : ctxTimeoutMs ≤ max r (pollIntervalMs * (k + 1))
    · rw [if_pos hdone] at hq
      simp at hq
    · rw [if_neg hdone] at hq
      rcases hres : queryRes s k (max r (pollIntervalMs * (k + 1))) with _ | _ | _ <;>
        rw [hres] at hq
      · simp at hq
        subst hq
        exact ⟨rfl, rfl⟩
      · simp at hq
        rcases hq with hq | hq
        · subst hq
          exact ⟨rfl, rfl⟩
        · exact ih (k + 1) _ q hq
      · simp at hq
        subst hq
        exact ⟨rfl, rfl⟩

/-- On any schedule, once the namespace resolves the instrumented run
creates the pod in the resolved namespace. -/
theorem main1_createdNs (env : String) (nsFile : Option String) (inst ns : String)
    (s : Sched) (hns : currentNamespace env nsFile = Except.ok ns) :
    (main1 env nsFile inst s).createdNs = some ns := by
  simp only [main1, hns]
  repeat' split
  all_goals rfl

/-- On any schedule, once the namespace resolves the instrumented run
issues its patch against the resolved namespace. -/
theorem main1_patchNs (env : String) (nsFile : Option String) (inst ns : String)
    (s : Sched) (hns : currentNamespace env nsFile = Except.ok ns) :
    (main1 env nsFile inst s).patchNs = some ns := by
  simp only [main1, hns]
  repeat' split
  all_goals rfl

/-- On any schedule, every list query of the instrumented run is scoped
to the resolved namespace with the probe-instance selector. -/
theorem main1_queries_ns (env : String) (nsFile : Option String) (inst ns : String)
    (s : Sched) (hns : currentNamespace env nsFile = Except.ok ns) :
    ∀ q ∈ (main1 env nsFile inst s).queries,
      q.ns = ns ∧ q.selector = selectorFor inst := by
  intro q hq
  have hmem : q ∈ (pollerLoop1 s ns inst pollFuel 0 0).1 ∨ q ∈ ([] : List ListQ) := by
    simp only [main1, hns] at hq
    rcases hpe : s.patchErr with _ | _
    · simp only [hpe, Bool.false_eq_true, if_false] at hq
      rcases hpoll : pollerLoop1 s ns inst pollFuel 0 0 with ⟨qs, e⟩
      rw [hpoll] at hq
      rcases e with t | t | t <;> simp only at hq
      · split at hq
        all_goals exact Or.inl (by simpa using hq)
      · exact Or.inl hq
      · split at hq
        all_goals exact Or.inl (by simpa using hq)
    · simp only [hpe, if_true] at hq
      exact Or.inr hq
  rcases hmem with hmem | hmem
  · exact pollerLoop1_ns_sel s ns inst pollFuel 0 0 q hmem
  · simp at hmem

/-- On any schedule, every delete of the instrumented run targets the
resolved namespace and the created pod name. -/
theorem main1_deletes_ns (env : String) (nsFile : Option String) (inst ns : String)
    (s : Sched) (hns : currentNamespace env nsFile = Except.ok ns) :
    ∀ d ∈ (main1 env nsFile inst s).deletes,
      d.ns = ns ∧ d.name = podName inst := by
  intro d hd
  simp only [main1, hns] at hd
  rcases hpe : s.patchErr with _ | _
  · simp only [hpe, Bool.false_eq_true, if_false] at hd
    rcases hpoll : pollerLoop1 s ns inst pollFuel 0 0 with ⟨qs, e⟩
    rw [hpoll] at hd
    rcases e with t | t | t <;> simp only at hd
    · split at hd <;> simp at hd <;> simp [hd]
    · simp at hd
      simp [hd]
    · split at hd <;> simp at hd
      simp [hd]
  · simp only [hpe, if_true] at hd
    simp at hd

/-- On any schedule, every remote operation of the uninstrumented run
(create, patch, list, delete) targets the literal namespace "default". -/
theorem main2_default_ns (inst : String) (s : Sched) :
    (main2 inst s).createdNs = some "default" ∧
    (main2 inst s).patchNs = some "default" ∧
    (∀ q ∈ (main2 inst s).queries, q.ns = "default") ∧
    (∀ d ∈ (main2 inst s).deletes, d.ns = "default") := by
  refine ⟨?_, ?_, ?_, ?_⟩
  · simp only [main2]
    repeat' split
    all_goals rfl
  · simp only [main2]
    repeat' split
    all_goals rfl
  · intro q hq
    simp only [main2] at hq
    rcases hpe : s.patchErr with _ | _
    · simp only [hpe, Bool.false_eq_true, if_false] at hq
      rcases hpoll : pollerLoop2 s inst pollFuel 0 0 with ⟨qs, e⟩
      rw [hpoll] at hq
      have hmem : q ∈ qs := by
        rcases e with t | t | t <;> simp only at hq
        · split at hq
          · split at hq <;> simpa using hq
          · simpa using hq
        · simpa using hq
        · split at hq
          all_goals simpa using hq
      have hmem2 : q ∈ (pollerLoop2 s inst pollFuel 0 0).1 := by
        rw [hpoll]
        simpa using hmem
      exact (pollerLoop2_ns_sel s inst pollFuel 0 0 q hmem2).1
    · simp only [hpe, if_true] at hq
      simp at hq
  · intro d hd
    simp only [main2] at hd
    rcases hpe : s.patchErr with _ | _
    · simp only [hpe, Bool.false_eq_true, if_false] at hd
      rcases hpoll : pollerLoop2 s inst pollFuel 0 0 with ⟨qs, e⟩
      rw [hpoll] at hd
      rcases e with t | t | t <;> simp only at hd
      · split at hd
        · split at hd <;> simp at hd <;> simp [hd]
        · simp at hd
      · simp at hd
      · split at hd <;> simp at hd
    · simp only [hpe, if_true] at hd
      simp at hd

/-- Case split used by the race claims: either the pod becomes visible
at or before the last pre-deadline grid point, or no query before the
deadline ever sees it. -/
theorem sched_trichotomy (s : Sched) :
    (∃ v, s.visibleFrom = some v ∧ v ≤ 299900) ∨
      (s.visibleFrom = none ∨ ∃ v, s.visibleFrom = some v ∧ 299900 < v) := by
  rcases hvf : s.visibleFrom with _ | v
  · exact Or.inr (Or.inl rfl)
  · by_cases hv : v ≤ 299900
    · exact Or.inl ⟨v, rfl, hv⟩
    · exact Or.inr (Or.inr ⟨v, rfl, by omega⟩)

/-- Claim C1 (amended): on every failure-free schedule, the instrumented
version invokes delete exactly once against the created pod's name in
every interleaving of the visibility signal and the deadline, the
deadline-first interleaving included; the uninstrumented version invokes
delete exactly once when the visibility signal wins the race but never
when the deadline fires first (its timeout path performs no cleanup). -/
theorem C1_cleanup_amended (env : String) (nsFile : Option String) (inst ns : String)
    (s : Sched) (hF : FailureFree s)
    (hns : currentNamespace env nsFile = Except.ok ns) :
    ((main1 env nsFile inst s).deletes.length = 1 ∧
      ∀ d ∈ (main1 env nsFile inst s).deletes, d.ns = ns ∧ d.name = podName inst) ∧
    ((main2 inst s).outcome = RaceOutcome.foundFirst → (main2 inst s).deletes.length = 1) ∧
    ((main2 inst s).outcome = RaceOutcome.deadlineFirst → (main2 inst s).deletes = []) ∧
    (∀ d ∈ (main2 inst s).deletes, d.ns = "default" ∧ d.name = podName inst) := by
  rcases sched_trichotomy s with ⟨v, hv, hvle⟩ | hnone
  · rw [main1_clean_found env nsFile inst ns s v hF hns hv hvle,
      main2_clean_found inst s v hF hv hvle]
    simp
  · have hgrid := noSig_grid s hnone
    rw [main1_clean_timeout env nsFile inst ns s hF hns hgrid,
      main2_clean_timeout inst s hF hgrid]
    simp

theorem C1_cleanup_amended_witness :
    FailureFree sAt0 ∧
    ((main1 "foo" none "ab" sAt0).deletes.length = 1 ∧
      ∀ d ∈ (main1 "foo" none "ab" sAt0).deletes, d.ns = "foo" ∧ d.name = podName "ab") ∧
    ((main2 "ab" sAt0).outcome = RaceOutcome.foundFirst →
      (main2 "ab" sAt0).deletes.length = 1) ∧
    ((main2 "ab" sAt0).outcome = RaceOutcome.deadlineFirst →
      (main2 "ab" sAt0).deletes = []) ∧
    (∀ d ∈ (main2 "ab" sAt0).deletes, d.ns = "default" ∧ d.name = podName "ab") :=
  ⟨⟨rfl, fun _ => rfl, rfl, rfl⟩,
    C1_cleanup_amended "foo" none "ab" "foo" sAt0 ⟨rfl, fun _ => rfl, rfl, rfl⟩ rfl⟩

/-- Claim C1 (counterexample to the claim as stated): on the
failure-free schedule where the pod never becomes visible before the
deadline, the uninstrumented version creates the pod and the deadline
fires first, yet no delete is ever invoked, so delete is not invoked
exactly once in every interleaving. -/
theorem C1_claim_counterexample :
    (main2 "ab" sNone).createdNs = some "default" ∧
    (main2 "ab" sNone).outcome = RaceOutcome.deadlineFirst ∧
    (main2 "ab" sNone).deletes = [] := by
  rw [main2_clean_timeout "ab" sNone ⟨rfl, fun _ => rfl, rfl, rfl⟩
    (noSig_grid sNone (Or.inl rfl))]
  exact ⟨rfl, rfl, rfl⟩

/-- Claim C2: on every failure-free schedule in which the visibility
signal fires strictly before the deadline, each version produces exactly
one latency measurement equal to the time of the visibility event minus
the run's start time (time 0): the instrumented version records it as
the Pod found span event, the uninstrumented version prints it as
latency_ms; both classify the run as found-first and the measured value
is non-negative (it is a Nat) and strictly below the configured
deadline.  When the deadline fires before any visibility signal, no
latency value is produced and both versions classify the run as
deadline-first. -/
theorem C2_race_measurement (env : String) (nsFile : Option String) (inst ns : String)
    (s : Sched) (hF : FailureFree s)
    (hns : currentNamespace env nsFile = Except.ok ns) :
    (∀ v, s.visibleFrom = some v → v ≤ 299900 →
      (main1 env nsFile inst s).foundEventAt = some (pollIntervalMs * tickIndex v) ∧
      (main1 env nsFile inst s).outcome = RaceOutcome.foundFirst ∧
      (main2 inst s).latencyMs = some (pollIntervalMs * max 1 (tickIndex v)) ∧
      (main2 inst s).outcome = RaceOutcome.foundFirst ∧
      pollIntervalMs * tickIndex v < ctxTimeoutMs ∧
      pollIntervalMs * max 1 (tickIndex v) < ctxTimeoutMs) ∧
    ((s.visibleFrom = none ∨ ∃ v, s.visibleFrom = some v ∧ 299900 < v) →
      (main1 env nsFile inst s).foundEventAt = none ∧
      (main1 env nsFile inst s).latencyMs = none ∧
      (main2 inst s).latencyMs = none ∧
      (main1 env nsFile inst s).outcome = RaceOutcome.deadlineFirst ∧
      (main2 inst s).outcome = RaceOutcome.deadlineFirst) := by
  constructor
  · intro v hv hvle
    have hb := tickIndex_bound v hvle
    rw [main1_clean_found env nsFile inst ns s v hF hns hv hvle,
      main2_clean_found inst s v hF hv hvle]
    refine ⟨rfl, rfl, rfl, rfl, ?_, ?_⟩
    · simp only [pollIntervalMs, ctxTimeoutMs]
      omega
    · simp only [pollIntervalMs, ctxTimeoutMs]
      omega
  · intro hnone
    have hgrid := noSig_grid s hnone
    rw [main1_clean_timeout env nsFile inst ns s hF hns hgrid,
      main2_clean_timeout inst s hF hgrid]
    exact ⟨rfl, rfl, rfl, rfl, rfl⟩

theorem C2_race_measurement_witness :
    FailureFree sAt0 ∧
    ((main1 "foo" none "ab" sAt0).foundEventAt = some (pollIntervalMs * tickIndex 0) ∧
     (main1 "foo" none "ab" sAt0).outcome = RaceOutcome.foundFirst ∧
     (main2 "ab" sAt0).latencyMs = some (pollIntervalMs * max 1 (tickIndex 0)) ∧
     (main2 "ab" sAt0).outcome = RaceOutcome.foundFirst ∧
     pollIntervalMs * tickIndex 0 < ctxTimeoutMs ∧
     pollIntervalMs * max 1 (tickIndex 0) < ctxTimeoutMs) :=
  ⟨⟨rfl, fun _ => rfl, rfl, rfl⟩,
    (C2_race_measurement "foo" none "ab" "foo" sAt0 ⟨rfl, fun _ => rfl, rfl, rfl⟩ rfl).1
      0 rfl (by omega)⟩

/-- Claim C3 (code behaviour at the failing input): when the first list
query returns an error, the poller of either version panics, which in Go
aborts the whole process: the race never resolves, no delete is issued
and no timeout outcome is reported, contradicting the claim that a query
error is reported without crashing the process and the run resolves as
an error-tagged timeout. -/
theorem C3_list_error_crash :
    (main1 "foo" none "ab" sErr).panicPhase = some "list" ∧
    (main1 "foo" none "ab" sErr).outcome = RaceOutcome.noRace ∧
    (main1 "foo" none "ab" sErr).deletes = [] ∧
    (main1 "foo" none "ab" sErr).pollerExit = PollerExit.panicked 0 ∧
    (main2 "ab" sErr).panicPhase = some "list" ∧
    (main2 "ab" sErr).outcome = RaceOutcome.noRace ∧
    (main2 "ab" sErr).deletes = [] ∧
    (main2 "ab" sErr).pollerExit = PollerExit.panicked 100 :=
  ⟨rfl, rfl, rfl, rfl, rfl, rfl, rfl, rfl⟩

/-- Claim C4 (code behaviour at the failing input): when the delete call
fails after the visibility signal has already won the race, both
versions panic, aborting the process with a non-zero exit instead of
merely reporting the failure; and on the instrumented version's timeout
path the delete is issued under the already-cancelled context, so it
always fails and the run always ends in a cleanup panic. -/
theorem C4_delete_error_aborts :
    (main1 "foo" none "ab" sDelErr).outcome = RaceOutcome.foundFirst ∧
    (main1 "foo" none "ab" sDelErr).deletes.length = 1 ∧
    (main1 "foo" none "ab" sDelErr).panicPhase = some "delete" ∧
    (main2 "ab" sDelErr).outcome = RaceOutcome.foundFirst ∧
    (main2 "ab" sDelErr).deletes.length = 1 ∧
    (main2 "ab" sDelErr).panicPhase = some "delete" ∧
    (main1 "foo" none "ab" sNone).panicPhase = some "delete" := by
  refine ⟨rfl, rfl, rfl, rfl, rfl, rfl, ?_⟩
  rw [main1_clean_timeout "foo" none "ab" "foo" sNone ⟨rfl, fun _ => rfl, rfl, rfl⟩ rfl
    (noSig_grid sNone (Or.inl rfl))]

/-- Claim C5 (code behaviour at the failing input): when the
metadata-update patch fails after a successful create, both versions
panic immediately (the patch is wrapped in must), so the run aborts
before ever reaching the race and the created pod is never deleted,
contradicting the claim that the run proceeds to the race step. -/
theorem C5_patch_error_aborts :
    (main1 "foo" none "ab" sPatchErr).panicPhase = some "patch" ∧
    (main1 "foo" none "ab" sPatchErr).outcome = RaceOutcome.noRace ∧
    (main1 "foo" none "ab" sPatchErr).createdNs = some "foo" ∧
    (main1 "foo" none "ab" sPatchErr).deletes = [] ∧
    (main1 "foo" none "ab" sPatchErr).queries = [] ∧
    (main2 "ab" sPatchErr).panicPhase = some "patch" ∧
    (main2 "ab" sPatchErr).outcome = RaceOutcome.noRace ∧
    (main2 "ab" sPatchErr).deletes = [] :=
  ⟨rfl, rfl, rfl, rfl, rfl, rfl, rfl, rfl⟩

set_option maxRecDepth 400000 in
/-- Claim C6 (code behaviour at the failing input): on the schedule
where the successful list call returns exactly at the deadline and the
waiter's select resolves the tie through ctx.Done, the poller of either
version is left blocked forever on its unbuffered found send, because
the only receiver has already taken the deadline branch: the poller does
not terminate within one polling interval of the cancellation and is
only torn down by process exit, contradicting the claim that it
terminates in all schedules.  The instrumented run still resolves
through the deadline branch and issues its delete. -/
theorem C6_poller_blocked_leak :
    (main1 "foo" none "ab" sTie).pollerExit = PollerExit.blocked ctxTimeoutMs ∧
    (main1 "foo" none "ab" sTie).outcome = RaceOutcome.deadlineFirst ∧
    (main1 "foo" none "ab" sTie).deletes.length = 1 ∧
    (main2 "ab" sTie).pollerExit = PollerExit.blocked ctxTimeoutMs ∧
    (main2 "ab" sTie).outcome = RaceOutcome.deadlineFirst ∧
    (main2 "ab" sTie).deletes = [] :=
  ⟨rfl, rfl, rfl, rfl, rfl, rfl⟩

set_option maxRecDepth 1000000 in
/-- Claim C7: on every failure-free schedule, each version's poller
issues its list queries at consecutive 100ms grid points, every query
scoped to the run's namespace with the selector
probe-instance=<instance> (the instrumented version queries immediately
at time 0 and then on every tick, the uninstrumented one starts at the
first tick); on the first non-empty result the poller emits the
visibility signal exactly once, at that query's own return time, and
issues no further queries; with no visible pod it queries every grid
point before the deadline and then stops through the cancellation
branch. -/
theorem C7_poll_loop (env : String) (nsFile : Option String) (inst ns : String)
    (s : Sched) (hF : FailureFree s)
    (hns : currentNamespace env nsFile = Except.ok ns) :
    (∀ v, s.visibleFrom = some v → v ≤ 299900 →
      (main1 env nsFile inst s).queries =
        tickQueries ns (selectorFor inst) 0 (tickIndex v + 1) ∧
      (main1 env nsFile inst s).pollerExit =
        PollerExit.signalled (pollIntervalMs * tickIndex v) ∧
      (main2 inst s).queries =
        tickQueries "default" (selectorFor inst) pollIntervalMs (max 1 (tickIndex v)) ∧
      (main2 inst s).pollerExit =
        PollerExit.signalled (pollIntervalMs * max 1 (tickIndex v))) ∧
    ((s.visibleFrom = none ∨ ∃ v, s.visibleFrom = some v ∧ 299900 < v) →
      (main1 env nsFile inst s).queries = tickQueries ns (selectorFor inst) 0 3000 ∧
      (main1 env nsFile inst s).pollerExit = PollerExit.ctxDone ctxTimeoutMs ∧
      (main2 inst s).queries =
        tickQueries "default" (selectorFor inst) pollIntervalMs 2999 ∧
      (main2 inst s).pollerExit = PollerExit.ctxDone ctxTimeoutMs) := by
  constructor
  · intro v hv hvle
    rw [main1_clean_found env nsFile inst ns s v hF hns hv hvle,
      main2_clean_found inst s v hF hv hvle]
    exact ⟨rfl, rfl, rfl, rfl⟩
  · intro hnone
    have hgrid := noSig_grid s hnone
    rw [main1_clean_timeout env nsFile inst ns s hF hns hgrid,
      main2_clean_timeout inst s hF hgrid]
    exact ⟨rfl, rfl, rfl, rfl⟩

theorem C7_poll_loop_witness :
    FailureFree sAt0 ∧
    ((main1 "foo" none "ab" sAt0).queries =
      tickQueries "foo" (selectorFor "ab") 0 (tickIndex 0 + 1) ∧
     (main1 "foo" none "ab" sAt0).pollerExit =
      PollerExit.signalled (pollIntervalMs * tickIndex 0) ∧
     (main2 "ab" sAt0).queries =
      tickQueries "default" (selectorFor "ab") pollIntervalMs (max 1 (tickIndex 0)) ∧
     (main2 "ab" sAt0).pollerExit =
      PollerExit.signalled (pollIntervalMs * max 1 (tickIndex 0))) :=
  ⟨⟨rfl, fun _ => rfl, rfl, rfl⟩,
    (C7_poll_loop "foo" none "ab" "foo" sAt0 ⟨rfl, fun _ => rfl, rfl, rfl⟩ rfl).1
      0 rfl (by omega)⟩

/-- Claim C8 (amended): the instrumented version resolves the namespace
with the environment override taking precedence, falls back to the
mounted identity file, aborts the run before creating anything when both
are absent, and uses the resolved namespace for every remote operation;
the uninstrumented version performs no resolution at all and uses the
literal namespace "default" for every remote operation. -/
theorem C8_namespace_amended (env : String) (nsFile : Option String) (inst : String)
    (s : Sched) :
    (env ≠ "" → currentNamespace env nsFile = Except.ok env) ∧
    (env = "" → ∀ d, nsFile = some d → currentNamespace env nsFile = Except.ok d) ∧
    (env = "" → nsFile = none →
      (main1 env nsFile inst s).createdNs = none ∧
      (main1 env nsFile inst s).panicPhase = some "namespace" ∧
      (main1 env nsFile inst s).queries = [] ∧
      (main1 env nsFile inst s).deletes = []) ∧
    (∀ ns, currentNamespace env nsFile = Except.ok ns →
      (main1 env nsFile inst s).createdNs = some ns ∧
      (main1 env nsFile inst s).patchNs = some ns ∧
      (∀ q ∈ (main1 env nsFile inst s).queries, q.ns = ns) ∧
      (∀ d ∈ (main1 env nsFile inst s).deletes, d.ns = ns)) ∧
    ((main2 inst s).createdNs = some "default" ∧
      (∀ q ∈ (main2 inst s).queries, q.ns = "default") ∧
      (∀ d ∈ (main2 inst s).deletes, d.ns = "default")) := by
  refine ⟨?_, ?_, ?_, ?_, ?_⟩
  · intro h
    simp [currentNamespace, h]
  · intro h d hd
    simp [currentNamespace, h, hd]
  · intro h hn
    have hcn : currentNamespace env nsFile = Except.error "failed to read namespace" := by
      simp [currentNamespace, h, hn]
    simp only [main1, hcn]
    refine ⟨?_, ?_, ?_, ?_⟩ <;> first | rfl | trivial
  · intro ns hns
    exact ⟨main1_createdNs env nsFile inst ns s hns, main1_patchNs env nsFile inst ns s hns,
      fun q hq => (main1_queries_ns env nsFile inst ns s hns q hq).1,
      fun d hd => (main1_deletes_ns env nsFile inst ns s hns d hd).1⟩
  · obtain ⟨h1, h2, h3, h4⟩ := main2_default_ns inst s
    exact ⟨h1, h3, h4⟩

theorem C8_namespace_amended_witness :
    currentNamespace "foo" none = Except.ok "foo" ∧
    (main2 "ab" sAt0).createdNs = some "default" :=
  ⟨(C8_namespace_amended "foo" none "ab" sAt0).1 (by decide),
    (C8_namespace_amended "foo" none "ab" sAt0).2.2.2.2.1⟩

/-- Claim C8 (counterexample to the claim as stated): with the
environment override set to "foo" the resolution yields "foo", yet the
uninstrumented version creates the pod in the literal namespace
"default", so not every remote operation of a run uses the resolved
namespace. -/
theorem C8_claim_counterexample :
    currentNamespace "foo" none = Except.ok "foo" ∧
    (main2 "ab" sAt0).createdNs = some "default" ∧
    ("default" : String) ≠ "foo" :=
  ⟨rfl, rfl, by decide⟩

/-- Claim C9 (amended): the two versions are not observationally
equivalent, but on every failure-free schedule they agree on the pod
name and on the race classification: found-first exactly when some list
query before the deadline sees the pod, deadline-first otherwise. -/
theorem C9_equiv_amended (env : String) (nsFile : Option String) (inst ns : String)
    (s : Sched) (hF : FailureFree s)
    (hns : currentNamespace env nsFile = Except.ok ns) :
    (main1 env nsFile inst s).pod = (main2 inst s).pod ∧
    (main1 env nsFile inst s).outcome = (main2 inst s).outcome := by
  rcases sched_trichotomy s with ⟨v, hv, hvle⟩ | hnone
  · rw [main1_clean_found env nsFile inst ns s v hF hns hv hvle,
      main2_clean_found inst s v hF hv hvle]
    exact ⟨rfl, rfl⟩
  · have hgrid := noSig_grid s hnone
    rw [main1_clean_timeout env nsFile inst ns s hF hns hgrid,
      main2_clean_timeout inst s hF hgrid]
    exact ⟨rfl, rfl⟩

theorem C9_equiv_amended_witness :
    FailureFree sAt0 ∧
    (main1 "foo" none "ab" sAt0).pod = (main2 "ab" sAt0).pod ∧
    (main1 "foo" none "ab" sAt0).outcome = (main2 "ab" sAt0).outcome :=
  ⟨⟨rfl, fun _ => rfl, rfl, rfl⟩,
    C9_equiv_amended "foo" none "ab" "foo" sAt0 ⟨rfl, fun _ => rfl, rfl, rfl⟩ rfl⟩

/-- Claim C9 (counterexample to the claim as stated): on the
failure-free schedule where the pod never becomes visible and the
override is "foo", the two versions issue different operation sequences:
the instrumented version deletes once where the uninstrumented one never
deletes, they create the pod in different namespaces, and they issue
different numbers of list queries, so they are not observationally
equivalent. -/
theorem C9_claim_counterexample :
    (main1 "foo" none "ab" sNone).deletes.length = 1 ∧
    (main2 "ab" sNone).deletes.length = 0 ∧
    (main1 "foo" none "ab" sNone).createdNs = some "foo" ∧
    (main2 "ab" sNone).createdNs = some "default" ∧
    (main1 "foo" none "ab" sNone).queries.length = 3000 ∧
    (main2 "ab" sNone).queries.length = 2999 := by
  rw [main1_clean_timeout "foo" none "ab" "foo" sNone ⟨rfl, fun _ => rfl, rfl, rfl⟩ rfl
      (noSig_grid sNone (Or.inl rfl)),
    main2_clean_timeout "ab" sNone ⟨rfl, fun _ => rfl, rfl, rfl⟩
      (noSig_grid sNone (Or.inl rfl))]
  refine ⟨rfl, rfl, rfl, rfl, ?_, ?_⟩
  · simp [tickQueries]
  · simp [tickQueries]

/-- Claim C10: with the environment override unset and the identity file
present but empty, currentNamespace returns the empty string with no
error, and on any schedule the instrumented run proceeds: it creates and
patches the pod in the empty namespace instead of failing with a
configuration error. -/
theorem C10_empty_nsfile :
    currentNamespace "" (some "") = Except.ok "" ∧
    ∀ inst s, (main1 "" (some "") inst s).createdNs = some "" ∧
      (main1 "" (some "") inst s).patchNs = some "" :=
  ⟨rfl, fun inst s => ⟨main1_createdNs "" (some "") inst "" s rfl,
    main1_patchNs "" (some "") inst "" s rfl⟩⟩

end Probe
